import Mathlib

/-!
Verification development for the USSD Data Manager repository.

The definitions below are a shallow embedding of the repository's code:

* `src/src/utils.ts` — the pure catalog transforms (`toOriginalSchema`,
  `normalizeImported`, `applyTelcoSubset`);
* `src/src/App.tsx` — the change-request workflow (`setTelcoField`,
  `submitDraftChange`, `cancelDraftChange`, `recallPendingChange`,
  `approveChangeRequest`, `rejectChangeRequest`);
* `src/api/index.js` and `src/server_readonly.js` — the read-only API
  handlers (`handleLookup`, `handleCompare`), whose bodies are identical
  in both files and are parametrised here by the data map they read.

JavaScript objects with string keys are modelled as association lists
`List (String × α)` with insertion-order semantics: assigning to an
existing key updates the value in place (keeping its position), and
assigning to a fresh key appends it.  `nowISO()` and
`generateChangeRequestId()` are modelled by explicit `now` / `freshId`
parameters.
-/

namespace Ussd

/-! ## JS-object association lists -/

def keysA {α : Type} (m : List (String × α)) : List String :=
  m.map Prod.fst

def lookupA {α : Type} (m : List (String × α)) (k : String) : Option α :=
  (m.find? (fun p => decide (p.1 = k))).map Prod.snd

/-- Model of `obj[k] = v` / `{ ...obj, [k]: v }` on a JS object: update in
place when the key exists, append otherwise. -/
def insertA {α : Type} (m : List (String × α)) (k : String) (v : α) : List (String × α) :=
  if k ∈ keysA m then m.map (fun p => if p.1 = k then (k, v) else p)
  else m ++ [(k, v)]

/-- Model of `delete obj[k]`. -/
def eraseA {α : Type} (m : List (String × α)) (k : String) : List (String × α) :=
  m.filter (fun p => !(decide (p.1 = k)))

theorem lookupA_nil {α : Type} (k : String) : lookupA ([] : List (String × α)) k = none := rfl

theorem lookupA_cons {α : Type} (p : String × α) (m : List (String × α)) (k : String) :
    lookupA (p :: m) k = if p.1 = k then some p.2 else lookupA m k := by
  by_cases h : p.1 = k <;> simp [lookupA, List.find?_cons, h]

theorem lookupA_append {α : Type} (m₁ m₂ : List (String × α)) (k : String) :
    lookupA (m₁ ++ m₂) k =
      match lookupA m₁ k with
      | some v => some v
      | none => lookupA m₂ k := by
  induction m₁ with
  | nil => simp [lookupA_nil]
  | cons p m ih =>
    by_cases h : p.1 = k <;> simp [lookupA_cons, h, ih]

theorem keysA_nil {α : Type} : keysA ([] : List (String × α)) = [] := rfl

theorem keysA_cons {α : Type} (p : String × α) (m : List (String × α)) :
    keysA (p :: m) = p.1 :: keysA m := rfl

theorem lookupA_eq_none_iff {α : Type} (m : List (String × α)) (k : String) :
    lookupA m k = none ↔ k ∉ keysA m := by
  induction m with
  | nil => simp [lookupA_nil, keysA_nil]
  | cons p m ih =>
    rw [lookupA_cons, keysA_cons]
    by_cases h : p.1 = k
    · simp [h]
    · rw [if_neg h, ih]
      simp only [List.mem_cons, not_or]
      exact ⟨fun hk => ⟨fun he => h he.symm, hk⟩, fun hk => hk.2⟩

theorem lookupA_isSome_iff {α : Type} (m : List (String × α)) (k : String) :
    (lookupA m k).isSome = true ↔ k ∈ keysA m := by
  rw [← Decidable.not_iff_not, ← lookupA_eq_none_iff m k]
  cases lookupA m k <;> simp

theorem lookupA_insertA_self {α : Type} (m : List (String × α)) (k : String) (v : α) :
    lookupA (insertA m k v) k = some v := by
  unfold insertA
  by_cases hk : k ∈ keysA m
  · simp only [if_pos hk]
    induction m with
    | nil => simp [keysA] at hk
    | cons p m ih =>
      by_cases h : p.1 = k
      · simp [h, lookupA_cons]
      · simp [keysA, h] at hk
        rcases hk with hk | hk
        · exact absurd hk.symm h
        · simpa [h, lookupA_cons] using ih (by simp [keysA, hk])
  · simp only [if_neg hk]
    rw [lookupA_append]
    rw [(lookupA_eq_none_iff m k).mpr hk]
    simp [lookupA_cons]

theorem lookupA_mapReplace_ne {α : Type} (m : List (String × α)) (k k' : String) (v : α)
    (h : k' ≠ k) :
    lookupA (m.map (fun p => if p.1 = k then (k, v) else p)) k' = lookupA m k' := by
  induction m with
  | nil => rfl
  | cons p m ih =>
    by_cases hp : p.1 = k
    · simp [lookupA_cons, hp, Ne.symm h, ih]
    · simp [lookupA_cons, hp, ih]

theorem lookupA_insertA_ne {α : Type} (m : List (String × α)) (k k' : String) (v : α)
    (h : k' ≠ k) : lookupA (insertA m k v) k' = lookupA m k' := by
  unfold insertA
  by_cases hk : k ∈ keysA m
  · rw [if_pos hk]
    exact lookupA_mapReplace_ne m k k' v h
  · rw [if_neg hk, lookupA_append]
    cases hc : lookupA m k' <;> simp [lookupA_nil, lookupA_cons, Ne.symm h, hc]

theorem keysA_mapReplace {α : Type} (m : List (String × α)) (k : String) (v : α) :
    keysA (m.map (fun p => if p.1 = k then (k, v) else p)) = keysA m := by
  induction m with
  | nil => rfl
  | cons p m ih =>
    by_cases hp : p.1 = k <;> simp [keysA_cons, hp, ih]

theorem keysA_insertA_mem {α : Type} (m : List (String × α)) (k : String) (v : α)
    (h : k ∈ keysA m) : keysA (insertA m k v) = keysA m := by
  unfold insertA
  rw [if_pos h]
  exact keysA_mapReplace m k v

theorem insertA_not_mem {α : Type} (m : List (String × α)) (k : String) (v : α)
    (h : k ∉ keysA m) : insertA m k v = m ++ [(k, v)] := by
  unfold insertA
  rw [if_neg h]

theorem keysA_append {α : Type} (m₁ m₂ : List (String × α)) :
    keysA (m₁ ++ m₂) = keysA m₁ ++ keysA m₂ := by
  simp [keysA]

theorem keysA_insertA_nodup {α : Type} (m : List (String × α)) (k : String) (v : α)
    (h : (keysA m).Nodup) : (keysA (insertA m k v)).Nodup := by
  by_cases hk : k ∈ keysA m
  · rw [keysA_insertA_mem m k v hk]; exact h
  · rw [insertA_not_mem m k v hk, keysA_append]
    refine List.Nodup.append h (List.nodup_singleton k) ?_
    intro x hx hx'
    rw [keysA_cons, keysA_nil, List.mem_singleton] at hx'
    subst hx'
    exact hk hx

theorem mem_insertA {α : Type} (m : List (String × α)) (k : String) (v : α)
    (p : String × α) (hp : p ∈ insertA m k v) : p = (k, v) ∨ p ∈ m := by
  unfold insertA at hp
  by_cases hk : k ∈ keysA m
  · rw [if_pos hk] at hp
    rcases List.mem_map.mp hp with ⟨q, hq, hqe⟩
    by_cases hq1 : q.1 = k
    · simp [hq1] at hqe; exact Or.inl hqe.symm
    · simp [hq1] at hqe; exact Or.inr (hqe ▸ hq)
  · rw [if_neg hk] at hp
    rcases List.mem_append.mp hp with h | h
    · exact Or.inr h
    · simp at h; exact Or.inl h

theorem lookupA_eraseA_self {α : Type} (m : List (String × α)) (k : String) :
    lookupA (eraseA m k) k = none := by
  induction m with
  | nil => rfl
  | cons p m ih =>
    by_cases hp : p.1 = k <;> simp [eraseA, hp, lookupA_cons] at * <;> exact ih

theorem lookupA_eraseA_ne {α : Type} (m : List (String × α)) (k k' : String)
    (h : k' ≠ k) : lookupA (eraseA m k) k' = lookupA m k' := by
  induction m with
  | nil => rfl
  | cons p m ih =>
    simp only [eraseA] at ih ⊢
    rw [List.filter_cons]
    by_cases hp : p.1 = k <;> simp [hp, Ne.symm h, lookupA_cons, ih]

/-! ## String helpers

Models of the JavaScript string operations used by the sources:
`.trim()`, `.toLowerCase()` and `.split('.')`. -/

def isSpaceChar (c : Char) : Bool :=
  c = ' ' || c = '\t' || c = '\n' || c = '\r'

/-- Model of JS `s.trim()`. -/
def jsTrim (s : String) : String :=
  String.mk (((s.data.dropWhile isSpaceChar).reverse.dropWhile isSpaceChar).reverse)

def jsLowerChar (c : Char) : Char :=
  if 'A' ≤ c && c ≤ 'Z' then Char.ofNat (c.toNat + 32) else c

/-- Model of JS `s.toLowerCase()`. -/
def jsToLower (s : String) : String :=
  String.mk (s.data.map jsLowerChar)

def splitAux (c : Char) : List Char → List Char → List String
  | [], acc => [String.mk acc.reverse]
  | x :: xs, acc =>
    if x = c then String.mk acc.reverse :: splitAux c xs []
    else splitAux c xs (x :: acc)

/-- Model of JS `s.split(c)` for a one-character separator. -/
def splitOnChar (c : Char) (s : String) : List String :=
  splitAux c s.data []

/-! ## Data model (`src/src/types.ts`) -/

inductive TelcoKey
  | mtn
  | telecel
  | airteltigo
  | glo
  deriving DecidableEq, Repr

inductive Role
  | admin
  | mtn
  | telecel
  | airteltigo
  | glo
  deriving DecidableEq, Repr

/-- The role string equal to a given telco key (JS compares `role === telco`). -/
def telcoRole : TelcoKey → Role
  | TelcoKey.mtn => Role.mtn
  | TelcoKey.telecel => Role.telecel
  | TelcoKey.airteltigo => Role.airteltigo
  | TelcoKey.glo => Role.glo

def telcoStr : TelcoKey → String
  | TelcoKey.mtn => "mtn"
  | TelcoKey.telecel => "telecel"
  | TelcoKey.airteltigo => "airteltigo"
  | TelcoKey.glo => "glo"

def telcoOfString (s : String) : Option TelcoKey :=
  if s = "mtn" then some TelcoKey.mtn
  else if s = "telecel" then some TelcoKey.telecel
  else if s = "airteltigo" then some TelcoKey.airteltigo
  else if s = "glo" then some TelcoKey.glo
  else none

structure TelcoInfo where
  code : String
  explanation : String
  deriving DecidableEq, Repr

/-- `Record<TelcoKey, TelcoInfo>`, with one field per network. -/
structure Telcos where
  mtn : TelcoInfo
  telecel : TelcoInfo
  airteltigo : TelcoInfo
  glo : TelcoInfo
  deriving DecidableEq, Repr

def telcoGet (t : Telcos) : TelcoKey → TelcoInfo
  | TelcoKey.mtn => t.mtn
  | TelcoKey.telecel => t.telecel
  | TelcoKey.airteltigo => t.airteltigo
  | TelcoKey.glo => t.glo

def telcoSet (t : Telcos) : TelcoKey → TelcoInfo → Telcos
  | TelcoKey.mtn, v => { t with mtn := v }
  | TelcoKey.telecel, v => { t with telecel := v }
  | TelcoKey.airteltigo, v => { t with airteltigo := v }
  | TelcoKey.glo, v => { t with glo := v }

structure ServiceEntry where
  service_id : String
  service_name : String
  description : Option String
  telcos : Telcos
  active : Bool
  lastUpdated : String
  deriving DecidableEq, Repr

abbrev ServiceMap : Type := List (String × ServiceEntry)

inductive Status
  | draft
  | pending
  | approved
  | rejected
  deriving DecidableEq, Repr

structure ChangeRequest where
  id : String
  serviceId : String
  field : String
  oldValue : String
  newValue : String
  requestedBy : String
  requestedAt : String
  status : Status
  reviewedBy : Option String
  reviewedAt : Option String
  comments : Option String
  deriving DecidableEq, Repr

abbrev ChangeRequestMap : Type := List (String × ChangeRequest)

structure Session where
  role : Role
  displayName : String
  deriving DecidableEq, Repr

/-- The `'code' | 'explanation'` union used by `setTelcoField`. -/
inductive CRKey
  | code
  | explanation
  deriving DecidableEq, Repr

def crKeyStr : CRKey → String
  | CRKey.code => "code"
  | CRKey.explanation => "explanation"

def crGet (t : TelcoInfo) : CRKey → String
  | CRKey.code => t.code
  | CRKey.explanation => t.explanation

def crSet (t : TelcoInfo) : CRKey → String → TelcoInfo
  | CRKey.code, v => { t with code := v }
  | CRKey.explanation, v => { t with explanation := v }

/-- The field path string built by `setTelcoField`: `telcos.${telco}.${key}`. -/
def fieldPath (t : TelcoKey) (k : CRKey) : String :=
  "telcos." ++ telcoStr t ++ "." ++ crKeyStr k

theorem telcoGet_telcoSet_self (t : Telcos) (n : TelcoKey) (v : TelcoInfo) :
    telcoGet (telcoSet t n v) n = v := by
  cases n <;> rfl

theorem telcoGet_telcoSet_ne (t : Telcos) (n n' : TelcoKey) (v : TelcoInfo)
    (h : n' ≠ n) : telcoGet (telcoSet t n v) n' = telcoGet t n' := by
  cases n <;> cases n' <;> first
    | rfl
    | exact absurd rfl h

theorem telcoRole_ne_admin (t : TelcoKey) : telcoRole t ≠ Role.admin := by
  cases t <;> simp [telcoRole]

theorem splitOnChar_fieldPath (t : TelcoKey) (k : CRKey) :
    splitOnChar '.' (fieldPath t k) = ["telcos", telcoStr t, crKeyStr k] := by
  cases t <;> cases k <;> rfl

/-! ## Export / import projections (`src/src/utils.ts`)

The exported JSON schema is modelled by `RawService` / `RawTelco`, whose
fields are `Option`-typed to reflect `??` defaulting on import. -/

structure RawTelco where
  code : Option String
  explanation : Option String
  deriving DecidableEq, Repr

structure RawService where
  service_name : Option String
  description : Option String
  mtn : Option RawTelco
  telecel : Option RawTelco
  airteltigo : Option RawTelco
  glo : Option RawTelco
  deriving DecidableEq, Repr

abbrev RawMap : Type := List (String × RawService)

def exportTelco (t : TelcoInfo) : RawTelco :=
  { code := some t.code, explanation := some t.explanation }

/-- The object written for one active service by `toOriginalSchema`;
`description` is intentionally excluded from the export. -/
def exportEntry (s : ServiceEntry) : RawService :=
  { service_name := some s.service_name
    description := none
    mtn := some (exportTelco s.telcos.mtn)
    telecel := some (exportTelco s.telcos.telecel)
    airteltigo := some (exportTelco s.telcos.airteltigo)
    glo := some (exportTelco s.telcos.glo) }

/-- One iteration of the `toOriginalSchema` loop: skip inactive services,
write `out[s.service_id]` otherwise. -/
def exportStep (out : RawMap) (p : String × ServiceEntry) : RawMap :=
  if p.2.active then insertA out p.2.service_id (exportEntry p.2) else out

/-- `toOriginalSchema` of `utils.ts`: full-schema export of all active
services, keyed by `service_id`. -/
def toOriginalSchema (m : ServiceMap) : RawMap :=
  m.foldl exportStep []

/-- `String(t.code ?? '')` / `String(t.explanation ?? '')` over `obj[key] || {}`. -/
def normTelco (o : Option RawTelco) : TelcoInfo :=
  let t := o.getD { code := none, explanation := none }
  { code := t.code.getD "", explanation := t.explanation.getD "" }

/-- `obj.description ? String(obj.description) : undefined`
(the empty string is falsy in JS). -/
def normDescription (o : Option String) : Option String :=
  match o with
  | some d => if d = "" then none else some d
  | none => none

def normEntry (service_id : String) (obj : RawService) (now : String) : ServiceEntry :=
  { service_id := service_id
    service_name := obj.service_name.getD service_id
    description := normDescription obj.description
    telcos :=
      { mtn := normTelco obj.mtn
        telecel := normTelco obj.telecel
        airteltigo := normTelco obj.airteltigo
        glo := normTelco obj.glo }
    active := true
    lastUpdated := now }

/-- One iteration of the `normalizeImported` loop:
`result[service_id] = normalized entry`. -/
def importStep (now : String) (result : ServiceMap) (p : String × RawService) : ServiceMap :=
  insertA result p.1 (normEntry p.1 p.2 now)

/-- `normalizeImported` of `utils.ts`, restricted to object-shaped input
(non-object entries are skipped by the source and are not representable
in the typed `RawMap`).  `new Date().toISOString()` is the `now` argument. -/
def normalizeImported (j : RawMap) (now : String) : ServiceMap :=
  j.foldl (importStep now) []

/-- One iteration of the `applyTelcoSubset` loop: merge one subset entry
into the map, skipping unknown service ids. -/
def applyTelcoSubsetStep (telco : TelcoKey) (now : String)
    (next : ServiceMap) (p : String × RawTelco) : ServiceMap :=
  match lookupA next p.1 with
  | none => next
  | some e =>
    let t := telcoGet e.telcos telco
    insertA next p.1
      { e with
        telcos := telcoSet e.telcos telco
          { code := p.2.code.getD t.code
            explanation := p.2.explanation.getD t.explanation }
        lastUpdated := now }

/-- `applyTelcoSubset` of `utils.ts` (the deep clone of the source is the
identity in this functional model). -/
def applyTelcoSubset (m : ServiceMap) (telco : TelcoKey)
    (subset : List (String × RawTelco)) (now : String) : ServiceMap :=
  subset.foldl (applyTelcoSubsetStep telco now) m

/-! ## Application state and change-request workflow (`src/src/App.tsx`) -/

structure AppState where
  services : ServiceMap
  changeRequests : ChangeRequestMap
  session : Option Session
  deriving DecidableEq, Repr

/-- `const role = session?.role ?? null`. -/
def roleOf (st : AppState) : Option Role :=
  st.session.map Session.role

/-- `session?.displayName || fallback` (empty display name is falsy). -/
def displayNameOr (st : AppState) (fallback : String) : String :=
  match st.session with
  | some s => if s.displayName = "" then fallback else s.displayName
  | none => fallback

/-- `services[sid]?.service_name || 'Unknown Service'`. -/
def serviceNameOr (st : AppState) (sid : String) : String :=
  match lookupA st.services sid with
  | some s => if s.service_name = "" then "Unknown Service" else s.service_name
  | none => "Unknown Service"

/-- Result of one UI event handler: the new state plus the `alert(...)`
message it showed, if any.  The source handlers return nothing. -/
structure ActionResult where
  state : AppState
  alert : Option String
  deriving DecidableEq, Repr

/-- The `Object.values(changeRequests).find(...)` scan for an existing
draft for `(id, telcos.telco.key)`. -/
def findDraft (reqs : ChangeRequestMap) (id : String) (telco : TelcoKey)
    (key : CRKey) : Option ChangeRequest :=
  (reqs.find? (fun p =>
    decide (p.2.serviceId = id ∧ p.2.field = fieldPath telco key ∧
      p.2.status = Status.draft))).map Prod.snd

/-- `setTelcoField` of `App.tsx`.  `now` models `nowISO()`; `freshId`
models `generateChangeRequestId()`. -/
def setTelcoField (st : AppState) (id : String) (telco : TelcoKey) (key : CRKey)
    (value : String) (now freshId : String) : ActionResult :=
  match roleOf st with
  | none => ⟨st, none⟩
  | some r =>
    if r = Role.admin ∨ r = telcoRole telco then
      match lookupA st.services id with
      | none => ⟨st, none⟩
      | some service =>
        let oldValue := crGet (telcoGet service.telcos telco) key
        if r = Role.admin then
          let service' :=
            { service with
              telcos := telcoSet service.telcos telco
                (crSet (telcoGet service.telcos telco) key value)
              lastUpdated := now }
          ⟨{ st with services := insertA st.services id service' }, none⟩
        else if r = telcoRole telco then
          match findDraft st.changeRequests id telco key with
          | some existingDraft =>
            let updatedRequest :=
              { existingDraft with newValue := value, requestedAt := now }
            ⟨{ st with changeRequests :=
                insertA st.changeRequests existingDraft.id updatedRequest }, none⟩
          | none =>
            let request : ChangeRequest :=
              { id := freshId
                serviceId := id
                field := fieldPath telco key
                oldValue := oldValue
                newValue := value
                requestedBy := displayNameOr st "Unknown User"
                requestedAt := now
                status := Status.draft
                reviewedBy := none
                reviewedAt := none
                comments := none }
            ⟨{ st with changeRequests := insertA st.changeRequests freshId request }, none⟩
        else ⟨st, none⟩
    else ⟨st, none⟩

/-- `submitDraftChange` of `App.tsx`. -/
def submitDraftChange (st : AppState) (requestId now : String) : ActionResult :=
  match lookupA st.changeRequests requestId with
  | none => ⟨st, none⟩
  | some request =>
    if request.status = Status.draft then
      let updatedRequest := { request with status := Status.pending, requestedAt := now }
      ⟨{ st with changeRequests := insertA st.changeRequests requestId updatedRequest },
        some "Change request submitted for admin review!"⟩
    else ⟨st, none⟩

/-- `recallPendingChange` of `App.tsx`. -/
def recallPendingChange (st : AppState) (requestId now : String) : ActionResult :=
  match lookupA st.changeRequests requestId with
  | none => ⟨st, none⟩
  | some request =>
    if request.status = Status.pending then
      let updatedRequest := { request with status := Status.draft, requestedAt := now }
      ⟨{ st with changeRequests := insertA st.changeRequests requestId updatedRequest },
        some "Change recalled! You can now edit and resubmit."⟩
    else ⟨st, none⟩

/-- `cancelDraftChange` of `App.tsx`: an unconditional `delete` with no
status or role check and no alert. -/
def cancelDraftChange (st : AppState) (requestId : String) : ActionResult :=
  ⟨{ st with changeRequests := eraseA st.changeRequests requestId }, none⟩

/-- The catalog mutation inside `approveChangeRequest`: parse the field
path and, when it addresses an existing leaf, write the new value and
stamp `lastUpdated`.  When the parsed key is a non-empty string other
than `code`/`explanation` the source would set a stray property (not
representable here); `lastUpdated` is still stamped in that case,
matching the source. -/
def applyFieldPath (request : ChangeRequest) (service : ServiceEntry)
    (now : String) : ServiceEntry :=
  let parts := splitOnChar '.' request.field
  match parts[1]?, parts[2]? with
  | some telco, some key =>
    match telcoOfString telco with
    | some t =>
      if key ≠ "" then
        let ti := telcoGet service.telcos t
        let ti' :=
          if key = "code" then { ti with code := request.newValue }
          else if key = "explanation" then { ti with explanation := request.newValue }
          else ti
        { service with telcos := telcoSet service.telcos t ti', lastUpdated := now }
      else service
    | none => service
  | _, _ => service

/-- `approveChangeRequest` of `App.tsx`. -/
def approveChangeRequest (st : AppState) (requestId now : String) : ActionResult :=
  if roleOf st = some Role.admin then
    match lookupA st.changeRequests requestId with
    | none => ⟨st, none⟩
    | some request =>
      if request.status = Status.pending then
        match lookupA st.services request.serviceId with
        | none => ⟨st, none⟩
        | some service =>
          let service' := applyFieldPath request service now
          let updatedRequest :=
            { request with
              status := Status.approved
              reviewedBy := some (displayNameOr st "Admin")
              reviewedAt := some now }
          ⟨{ st with
              services := insertA st.services request.serviceId service'
              changeRequests := insertA st.changeRequests requestId updatedRequest },
            some ("Change approved: " ++ request.field ++ " updated for " ++
              service.service_name)⟩
      else ⟨st, none⟩
  else ⟨st, none⟩

/-- `rejectChangeRequest` of `App.tsx`. -/
def rejectChangeRequest (st : AppState) (requestId : String)
    (comments : Option String) (now : String) : ActionResult :=
  if roleOf st = some Role.admin then
    match lookupA st.changeRequests requestId with
    | none => ⟨st, none⟩
    | some request =>
      if request.status = Status.pending then
        let updatedRequest :=
          { request with
            status := Status.rejected
            reviewedBy := some (displayNameOr st "Admin")
            reviewedAt := some now
            comments := comments }
        ⟨{ st with changeRequests := insertA st.changeRequests requestId updatedRequest },
          some ("Change rejected: " ++ request.field ++ " for " ++
            serviceNameOr st request.serviceId)⟩
      else ⟨st, none⟩
  else ⟨st, none⟩

/-- `(lookupA st.changeRequests rid).map status`: the status of a request
in the ledger, if it exists. -/
def statusAt (st : AppState) (requestId : String) : Option Status :=
  (lookupA st.changeRequests requestId).map ChangeRequest.status

/-! ## Read-only API handlers (`src/api/index.js`, `src/server_readonly.js`)

Both files contain the same lookup/compare bodies; they differ only in
where the data object comes from (hard-coded sample vs. a JSON file), so
the handlers are parametrised by the data map.  A data record is a JS
object whose per-network keys may be absent. -/

structure ServiceBlob where
  service_name : Option String
  mtn : Option TelcoInfo
  telecel : Option TelcoInfo
  airteltigo : Option TelcoInfo
  glo : Option TelcoInfo
  deriving DecidableEq, Repr

abbrev UssdData : Type := List (String × ServiceBlob)

/-- `serviceBlob[nKey]` for a network-name string. -/
def blobGet (b : ServiceBlob) (n : String) : Option TelcoInfo :=
  if n = "mtn" then b.mtn
  else if n = "telecel" then b.telecel
  else if n = "airteltigo" then b.airteltigo
  else if n = "glo" then b.glo
  else none

/-- `(n || '').trim().toLowerCase()`. -/
def normalizeNetwork (n : String) : String :=
  jsToLower (jsTrim n)

/-- `(s || '').trim().toLowerCase()`. -/
def normalizeService (s : String) : String :=
  jsToLower (jsTrim s)

def validNetworks : List String :=
  ["mtn", "telecel", "airteltigo", "glo"]

inductive LookupOutcome
  | success (code explanation : String)
  | unknownService
  | unknownNetwork
  | noEntry
  deriving DecidableEq, Repr

/-- HTTP status of each `handleLookup` response. -/
def lookupStatus : LookupOutcome → Nat
  | LookupOutcome.success _ _ => 200
  | LookupOutcome.unknownService => 404
  | LookupOutcome.unknownNetwork => 400
  | LookupOutcome.noEntry => 404

/-- `handleLookup` of `api/index.js` / the `/api/lookup/:service/:network`
route of `server_readonly.js`. -/
def handleLookup (data : UssdData) (service network : String) : LookupOutcome :=
  let sKey := normalizeService service
  let nKey := normalizeNetwork network
  match lookupA data sKey with
  | none => LookupOutcome.unknownService
  | some serviceBlob =>
    if validNetworks.contains nKey then
      match blobGet serviceBlob nKey with
      | none => LookupOutcome.noEntry
      | some entry => LookupOutcome.success entry.code entry.explanation
    else LookupOutcome.unknownNetwork

structure CompareResult where
  mtn : Option String
  telecel : Option String
  airteltigo : Option String
  glo : Option String
  deriving DecidableEq, Repr

inductive CompareOutcome
  | ok (r : CompareResult)
  | unknownService
  deriving DecidableEq, Repr

/-- `blob.n?.code || null`: both an absent record and an empty-string code
are falsy and yield `null`. -/
def codeOrNull (o : Option TelcoInfo) : Option String :=
  match o with
  | none => none
  | some t => if t.code = "" then none else some t.code

/-- `handleCompare` of `api/index.js` / the `/api/compare/:service` route
of `server_readonly.js`. -/
def handleCompare (data : UssdData) (service : String) : CompareOutcome :=
  match lookupA data (normalizeService service) with
  | none => CompareOutcome.unknownService
  | some blob =>
    CompareOutcome.ok
      { mtn := codeOrNull blob.mtn
        telecel := codeOrNull blob.telecel
        airteltigo := codeOrNull blob.airteltigo
        glo := codeOrNull blob.glo }

def isOk : CompareOutcome → Bool
  | CompareOutcome.ok _ => true
  | CompareOutcome.unknownService => false

/-- Per-network projection of a compare response. -/
def compareCodeAt (o : CompareOutcome) (n : TelcoKey) : Option String :=
  match o with
  | CompareOutcome.unknownService => none
  | CompareOutcome.ok r =>
    match n with
    | TelcoKey.mtn => r.mtn
    | TelcoKey.telecel => r.telecel
    | TelcoKey.airteltigo => r.airteltigo
    | TelcoKey.glo => r.glo

/-- Per-network projection of a data record, indexed by `TelcoKey`. -/
def blobNet (b : ServiceBlob) : TelcoKey → Option TelcoInfo
  | TelcoKey.mtn => b.mtn
  | TelcoKey.telecel => b.telecel
  | TelcoKey.airteltigo => b.airteltigo
  | TelcoKey.glo => b.glo

/-! ## Concrete fixtures for witnesses and counterexamples -/

def infoEmpty : TelcoInfo := { code := "", explanation := "" }

def telcosEmpty : Telcos :=
  { mtn := infoEmpty, telecel := infoEmpty, airteltigo := infoEmpty, glo := infoEmpty }

def entrySv : ServiceEntry :=
  { service_id := "sv", service_name := "Sample Service", description := none
    telcos := telcosEmpty, active := true, lastUpdated := "t0" }

def reqC1 : ChangeRequest :=
  { id := "cr1", serviceId := "sv", field := "telcos.mtn.code"
    oldValue := "", newValue := "*5#", requestedBy := "Rep", requestedAt := "t0"
    status := Status.pending, reviewedBy := none, reviewedAt := none, comments := none }

def stC1 : AppState :=
  { services := [("sv", entrySv)], changeRequests := [("cr1", reqC1)]
    session := some { role := Role.admin, displayName := "Boss" } }

/-- Number of ledger entries for `(sid, f)` in a given status. -/
def countStatus (reqs : ChangeRequestMap) (sid f : String) (s : Status) : Nat :=
  (reqs.filter (fun p =>
    decide (p.2.serviceId = sid ∧ p.2.field = f ∧ p.2.status = s))).length

def stC2a : AppState :=
  { services := [("sv", entrySv)], changeRequests := []
    session := some { role := Role.mtn, displayName := "Rep" } }

def stC2b : AppState := (setTelcoField stC2a "sv" TelcoKey.mtn CRKey.code "*1#" "t1" "cr1").state

def stC2c : AppState := (submitDraftChange stC2b "cr1" "t2").state

def stC2d : AppState := (setTelcoField stC2c "sv" TelcoKey.mtn CRKey.code "*2#" "t3" "cr2").state

def stC2e : AppState := (submitDraftChange stC2d "cr2" "t4").state

def reqGhost : ChangeRequest :=
  { id := "cr1", serviceId := "ghost", field := "telcos.mtn.code"
    oldValue := "", newValue := "*9#", requestedBy := "Rep", requestedAt := "t0"
    status := Status.pending, reviewedBy := none, reviewedAt := none, comments := none }

def stC3 : AppState :=
  { services := [("sv", entrySv)], changeRequests := [("cr1", reqGhost)]
    session := some { role := Role.admin, displayName := "Boss" } }

def stC4 : AppState :=
  { services := [("sv", entrySv)], changeRequests := [("cr1", reqC1)]
    session := some { role := Role.mtn, displayName := "Rep" } }

/-! ## C1 – C4: change-request workflow theorems -/

theorem crGet_crSet_self (ti : TelcoInfo) (k : CRKey) (v : String) :
    crGet (crSet ti k v) k = v := by
  cases k <;> rfl

theorem applyFieldPath_fieldPath (req : ChangeRequest) (svc : ServiceEntry)
    (now : String) (t : TelcoKey) (k : CRKey) (hfield : req.field = fieldPath t k) :
    applyFieldPath req svc now =
      { svc with
        telcos := telcoSet svc.telcos t (crSet (telcoGet svc.telcos t) k req.newValue)
        lastUpdated := now } := by
  unfold applyFieldPath
  rw [hfield, splitOnChar_fieldPath]
  cases t <;> cases k <;> rfl

/-- C1: an admin `approve` of a pending request whose target service
exists writes the request's `newValue` into the catalog leaf addressed by
the request's field path, stamps the service's `lastUpdated` with the
current time, and marks the request `approved` with `reviewedBy` and
`reviewedAt` set. -/
theorem approve_applies_pending_change (st : AppState) (rid now : String)
    (req : ChangeRequest) (svc : ServiceEntry) (t : TelcoKey) (k : CRKey)
    (hrole : roleOf st = some Role.admin)
    (hreq : lookupA st.changeRequests rid = some req)
    (hstat : req.status = Status.pending)
    (hsvc : lookupA st.services req.serviceId = some svc)
    (hfield : req.field = fieldPath t k) :
    (lookupA (approveChangeRequest st rid now).state.services req.serviceId).map
        (fun s => crGet (telcoGet s.telcos t) k) = some req.newValue ∧
    (lookupA (approveChangeRequest st rid now).state.services req.serviceId).map
        ServiceEntry.lastUpdated = some now ∧
    (lookupA (approveChangeRequest st rid now).state.changeRequests rid).map
        ChangeRequest.status = some Status.approved ∧
    (lookupA (approveChangeRequest st rid now).state.changeRequests rid).map
        ChangeRequest.reviewedAt = some (some now) ∧
    (lookupA (approveChangeRequest st rid now).state.changeRequests rid).map
        (fun r => r.reviewedBy.isSome) = some true := by
  have happ := applyFieldPath_fieldPath req svc now t k hfield
  simp only [approveChangeRequest, hrole, hreq, hstat, hsvc, if_true, ite_true,
    eq_self_iff_true]
  simp [lookupA_insertA_self, happ, telcoGet_telcoSet_self, crGet_crSet_self]

/-- Witness for C1 at a concrete admin state with a pending request for
`telcos.mtn.code`. -/
theorem approve_applies_pending_change_wit :
    (lookupA (approveChangeRequest stC1 "cr1" "t1").state.services "sv").map
        (fun s => crGet (telcoGet s.telcos TelcoKey.mtn) CRKey.code) = some "*5#" ∧
    (lookupA (approveChangeRequest stC1 "cr1" "t1").state.changeRequests "cr1").map
        ChangeRequest.status = some Status.approved := by
  have h := approve_applies_pending_change stC1 "cr1" "t1" reqC1 entrySv
    TelcoKey.mtn CRKey.code (by decide) (by decide) (by decide) (by decide) (by decide)
  exact ⟨h.1, h.2.2.1⟩

/-- C2 counterexample: the at-most-one-pending invariant is violated by a
reachable sequence — a rep edits a field (draft cr1), submits it, edits
the same field again (fresh draft cr2, since cr1 is no longer a draft)
and submits again, leaving two simultaneously pending requests for the
same `(service, field)` pair. -/
theorem two_pending_requests_reachable :
    countStatus stC2e.changeRequests "sv" "telcos.mtn.code" Status.pending = 2 := by
  decide

/-- C2 amended: `create-or-update-draft` itself preserves the invariant —
an edit to a field that already has a draft updates that draft in place
(same ledger keys, `newValue` overwritten) rather than creating a second
request.  The full invariant fails for `pending` (see the
counterexample). -/
theorem draft_edit_updates_in_place (st : AppState) (id : String)
    (telco : TelcoKey) (key : CRKey) (value now freshId : String)
    (draft : ChangeRequest)
    (hrole : roleOf st = some (telcoRole telco))
    (hsv : (lookupA st.services id).isSome = true)
    (hdraft : findDraft st.changeRequests id telco key = some draft)
    (hkey : draft.id ∈ keysA st.changeRequests) :
    (setTelcoField st id telco key value now freshId).state.changeRequests =
      insertA st.changeRequests draft.id
        { draft with newValue := value, requestedAt := now } ∧
    keysA (setTelcoField st id telco key value now freshId).state.changeRequests =
      keysA st.changeRequests ∧
    (setTelcoField st id telco key value now freshId).state.services = st.services := by
  cases hsvc : lookupA st.services id with
  | none => rw [hsvc] at hsv; simp at hsv
  | some service =>
    have hne := telcoRole_ne_admin telco
    simp only [setTelcoField, hrole, hsvc, hdraft, hne, Option.map_some, if_neg,
      ite_true, ite_false, eq_self_iff_true, or_true, if_true]
    exact ⟨trivial, keysA_insertA_mem st.changeRequests draft.id _ hkey, trivial⟩

/-- Witness for C2's amended statement: editing `sv`'s mtn code while a
draft for that field exists updates the draft in place. -/
theorem draft_edit_updates_in_place_wit :
    (setTelcoField stC2b "sv" TelcoKey.mtn CRKey.code "*7#" "t5" "crX").state.changeRequests =
      insertA stC2b.changeRequests "cr1"
        { id := "cr1", serviceId := "sv", field := "telcos.mtn.code"
          oldValue := "", newValue := "*7#", requestedBy := "Rep", requestedAt := "t5"
          status := Status.draft, reviewedBy := none, reviewedAt := none
          comments := none } ∧
    keysA (setTelcoField stC2b "sv" TelcoKey.mtn CRKey.code "*7#" "t5" "crX").state.changeRequests =
      keysA stC2b.changeRequests := by
  have h := draft_edit_updates_in_place stC2b "sv" TelcoKey.mtn CRKey.code "*7#" "t5" "crX"
    { id := "cr1", serviceId := "sv", field := "telcos.mtn.code"
      oldValue := "", newValue := "*1#", requestedBy := "Rep", requestedAt := "t1"
      status := Status.draft, reviewedBy := none, reviewedAt := none, comments := none }
    (by decide) (by decide) (by decide) (by decide)
  exact ⟨h.1, h.2.1⟩

/-- C3 counterexample: approving a pending request whose target service
is absent does NOT mark the request approved — the whole operation is an
early-return no-op, so the request stays `pending` and the state is
unchanged (the claim asserts the status becomes `approved`). -/
theorem approve_missing_service_not_approved :
    (approveChangeRequest stC3 "cr1" "t1").state = stC3 ∧
    ¬ ((lookupA (approveChangeRequest stC3 "cr1" "t1").state.changeRequests "cr1").map
        ChangeRequest.status = some Status.approved) := by
  decide

/-- C3 amended: an admin `approve` of a pending request whose target
service id is absent from the catalog is a complete no-op: catalog and
ledger are both unchanged and the request remains `pending` (it is not
marked approved). -/
theorem approve_missing_service_noop (st : AppState) (rid now : String)
    (req : ChangeRequest)
    (hrole : roleOf st = some Role.admin)
    (hreq : lookupA st.changeRequests rid = some req)
    (hstat : req.status = Status.pending)
    (hnone : lookupA st.services req.serviceId = none) :
    approveChangeRequest st rid now = ⟨st, none⟩ := by
  simp only [approveChangeRequest, hrole, hreq, hstat, hnone, if_true, ite_true,
    eq_self_iff_true]

/-- Witness for C3's amended statement at the concrete state `stC3`. -/
theorem approve_missing_service_noop_wit :
    approveChangeRequest stC3 "cr1" "t1" = ⟨stC3, none⟩ :=
  approve_missing_service_noop stC3 "cr1" "t1" reqGhost (by decide) (by decide)
    (by decide) (by decide)

/-- C4 counterexample: `submit` on a request that is not a draft reports
nothing at all — its result (unchanged state, no alert) is byte-for-byte
identical to calling it with a request id that does not exist, so the
caller cannot distinguish the precondition failure from "nothing to do",
contradicting the claim that an error distinguishable from success is
reported. -/
theorem failed_submit_silent :
    submitDraftChange stC4 "cr1" "t9" = ⟨stC4, none⟩ ∧
    submitDraftChange stC4 "no_such_id" "t9" = ⟨stC4, none⟩ := by
  decide

/-- C4 amended: a `submit`, `recall`, `approve` or `reject` whose status
precondition fails leaves ledger and catalog unchanged (fail-closed) but
reports nothing: the handler returns with no state change and no alert,
indistinguishable from a call on an unknown request id. -/
theorem failed_precondition_silent_noop (st : AppState) (rid now : String)
    (comments : Option String) :
    (statusAt st rid ≠ some Status.draft →
      submitDraftChange st rid now = ⟨st, none⟩) ∧
    (statusAt st rid ≠ some Status.pending →
      recallPendingChange st rid now = ⟨st, none⟩ ∧
      approveChangeRequest st rid now = ⟨st, none⟩ ∧
      rejectChangeRequest st rid comments now = ⟨st, none⟩) := by
  cases hc : lookupA st.changeRequests rid with
  | none =>
    by_cases hr : roleOf st = some Role.admin <;>
      simp [submitDraftChange, recallPendingChange, approveChangeRequest,
        rejectChangeRequest, hc, hr]
  | some req =>
    constructor
    · intro hne
      have hd : ¬ req.status = Status.draft := by
        intro h; exact hne (by simp [statusAt, hc, h])
      simp [submitDraftChange, hc, hd]
    · intro hne
      have hp : ¬ req.status = Status.pending := by
        intro h; exact hne (by simp [statusAt, hc, h])
      by_cases hr : roleOf st = some Role.admin <;>
        simp [recallPendingChange, approveChangeRequest, rejectChangeRequest,
          hc, hp, hr]

/-- Witness for C4's amended statement: at `stC4`, `cr1` is pending, so
submitting it (not a draft) and approving a non-existent id are both
silent no-ops. -/
theorem failed_precondition_silent_noop_wit :
    submitDraftChange stC4 "cr1" "t9" = ⟨stC4, none⟩ ∧
    recallPendingChange stC4 "no_such_id" "t9" = ⟨stC4, none⟩ := by
  refine ⟨(failed_precondition_silent_noop stC4 "cr1" "t9" none).1 (by decide), ?_⟩
  exact ((failed_precondition_silent_noop stC4 "no_such_id" "t9" none).2 (by decide)).1

/-! ## C5: export / import round trip -/

theorem foldl_insertA_fresh {β γ : Type}
    (f : List (String × γ) → β → List (String × γ))
    (key : β → String) (val : β → γ)
    (hf : ∀ out b, f out b = insertA out (key b) (val b)) (l : List β) :
    ∀ acc : List (String × γ), (l.map key).Nodup →
      (∀ b ∈ l, key b ∉ keysA acc) →
      l.foldl f acc = acc ++ l.map (fun b => (key b, val b)) := by
  induction l with
  | nil => intro acc _ _; simp
  | cons b bs ih =>
    intro acc hnd hdisj
    rw [List.map_cons, List.nodup_cons] at hnd
    have hnd' := hnd
    rw [List.foldl_cons, hf, insertA_not_mem acc (key b) (val b)
      (hdisj b (List.mem_cons_self b bs))]
    rw [ih (acc ++ [(key b, val b)]) hnd'.2 ?_]
    · simp
    · intro b' hb'
      rw [keysA_append]
      simp only [List.mem_append, not_or]
      refine ⟨hdisj b' (List.mem_cons_of_mem b hb'), ?_⟩
      rw [keysA_cons, keysA_nil, List.mem_singleton]
      intro h
      have h' : key b' = key b := h
      exact hnd'.1 (h' ▸ List.mem_map_of_mem key hb')

theorem exportStep_foldl_active (l : ServiceMap) :
    ∀ acc : RawMap, (∀ p ∈ l, p.2.active = true) →
      l.foldl exportStep acc =
        l.foldl (fun out p => insertA out p.2.service_id (exportEntry p.2)) acc := by
  induction l with
  | nil => intro acc _; rfl
  | cons p ps ih =>
    intro acc h
    rw [List.foldl_cons, List.foldl_cons, exportStep,
      if_pos (h p (List.mem_cons_self p ps))]
    exact ih _ (fun q hq => h q (List.mem_cons_of_mem p hq))

theorem export_foldl_keys_nodup (m : ServiceMap) :
    ∀ acc : RawMap, (keysA acc).Nodup → (keysA (m.foldl exportStep acc)).Nodup := by
  induction m with
  | nil => intro acc h; exact h
  | cons p ps ih =>
    intro acc h
    rw [List.foldl_cons, exportStep]
    by_cases hp : p.2.active = true
    · rw [if_pos hp]; exact ih _ (keysA_insertA_nodup _ _ _ h)
    · rw [if_neg hp]; exact ih _ h

theorem toOriginalSchema_keys_nodup (m : ServiceMap) :
    (keysA (toOriginalSchema m)).Nodup :=
  export_foldl_keys_nodup m [] (by simp [keysA_nil])

theorem export_foldl_shape (m : ServiceMap) :
    ∀ acc : RawMap, (∀ q ∈ acc, ∃ s, q.2 = exportEntry s) →
      ∀ q ∈ m.foldl exportStep acc, ∃ s, q.2 = exportEntry s := by
  induction m with
  | nil => intro acc h; exact h
  | cons p ps ih =>
    intro acc h
    rw [List.foldl_cons, exportStep]
    by_cases hp : p.2.active = true
    · rw [if_pos hp]
      refine ih _ ?_
      intro q hq
      rcases mem_insertA acc p.2.service_id (exportEntry p.2) q hq with h1 | h1
      · exact ⟨p.2, by rw [h1]⟩
      · exact h q h1
    · rw [if_neg hp]; exact ih _ h

theorem toOriginalSchema_shape (m : ServiceMap) :
    ∀ q ∈ toOriginalSchema m, ∃ s, q.2 = exportEntry s :=
  export_foldl_shape m [] (by simp)

/-- Re-normalising an exported record and exporting it again restores the
exported record: only the guidance note (already absent from the export)
could differ. -/
theorem exportEntry_normEntry (k now : String) (s : ServiceEntry) :
    exportEntry (normEntry k (exportEntry s) now) = exportEntry s := rfl

theorem map_export_of_shape (E : RawMap) (now : String)
    (hshape : ∀ q ∈ E, ∃ s, q.2 = exportEntry s) :
    (E.map (fun p => (p.1, normEntry p.1 p.2 now))).map
        (fun q => (q.2.service_id, exportEntry q.2)) = E := by
  induction E with
  | nil => rfl
  | cons p ps ih =>
    obtain ⟨k, r⟩ := p
    simp only [List.map_cons]
    rcases hshape (k, r) (List.mem_cons_self (k, r) ps) with ⟨s, hs⟩
    simp only at hs
    subst hs
    rw [ih (fun q hq => hshape q (List.mem_cons_of_mem _ hq))]
    rfl

theorem export_of_normalized (E : RawMap) (now : String)
    (hknd : ((E.map (fun p => (p.1, normEntry p.1 p.2 now))).map
      (fun q => q.2.service_id)).Nodup) :
    toOriginalSchema (E.map (fun p => (p.1, normEntry p.1 p.2 now))) =
      (E.map (fun p => (p.1, normEntry p.1 p.2 now))).map
        (fun q => (q.2.service_id, exportEntry q.2)) := by
  have hact : ∀ q ∈ E.map (fun p => (p.1, normEntry p.1 p.2 now)),
      q.2.active = true := by
    intro q hq
    rcases List.mem_map.mp hq with ⟨p, _, rfl⟩
    rfl
  unfold toOriginalSchema
  rw [exportStep_foldl_active _ [] hact]
  have h := foldl_insertA_fresh
    (fun out (q : String × ServiceEntry) => insertA out q.2.service_id (exportEntry q.2))
    (fun q => q.2.service_id) (fun q => exportEntry q.2) (fun _ _ => rfl)
    (E.map (fun p => (p.1, normEntry p.1 p.2 now))) [] hknd (by simp [keysA_nil])
  simpa using h

/-- C5: exporting the catalog in the full schema, importing it back with
`normalizeImported`, and exporting again yields the same projection:
`toOriginalSchema (normalizeImported (toOriginalSchema C)) = toOriginalSchema C`.
Only guidance notes are lost — `exportEntry` never emits `description`. -/
theorem export_import_roundtrip (m : ServiceMap) (now : String) :
    toOriginalSchema (normalizeImported (toOriginalSchema m) now) =
      toOriginalSchema m := by
  have hnd : (keysA (toOriginalSchema m)).Nodup := toOriginalSchema_keys_nodup m
  have hshape := toOriginalSchema_shape m
  have h2 : normalizeImported (toOriginalSchema m) now =
      (toOriginalSchema m).map (fun p => (p.1, normEntry p.1 p.2 now)) := by
    unfold normalizeImported
    have h := foldl_insertA_fresh (importStep now) Prod.fst
      (fun p => normEntry p.1 p.2 now) (fun _ _ => rfl) (toOriginalSchema m) []
      hnd (by simp [keysA_nil])
    simpa using h
  have hknd : (((toOriginalSchema m).map (fun p => (p.1, normEntry p.1 p.2 now))).map
      (fun q => q.2.service_id)).Nodup := by
    have he : ((toOriginalSchema m).map (fun p => (p.1, normEntry p.1 p.2 now))).map
        (fun q => q.2.service_id) = keysA (toOriginalSchema m) := by
      rw [List.map_map]; rfl
    rw [he]; exact hnd
  rw [h2, export_of_normalized (toOriginalSchema m) now hknd,
    map_export_of_shape (toOriginalSchema m) now hshape]

/-! ## C6: subset import frame property -/

/-- Everything except network `telco`'s record (and `lastUpdated`) is
preserved at key `id` when passing from map `m` to map `m'`. -/
structure FramesTo (m m' : ServiceMap) (telco : TelcoKey) (id : String) : Prop where
  domEq : (lookupA m' id).isSome = (lookupA m id).isSome
  idEq : (lookupA m' id).map ServiceEntry.service_id =
    (lookupA m id).map ServiceEntry.service_id
  nameEq : (lookupA m' id).map ServiceEntry.service_name =
    (lookupA m id).map ServiceEntry.service_name
  descEq : (lookupA m' id).map ServiceEntry.description =
    (lookupA m id).map ServiceEntry.description
  activeEq : (lookupA m' id).map ServiceEntry.active =
    (lookupA m id).map ServiceEntry.active
  otherNetEq : ∀ t2, t2 ≠ telco →
    (lookupA m' id).map (fun e => telcoGet e.telcos t2) =
      (lookupA m id).map (fun e => telcoGet e.telcos t2)

theorem framesTo_refl (m : ServiceMap) (telco : TelcoKey) (id : String) :
    FramesTo m m telco id :=
  ⟨rfl, rfl, rfl, rfl, rfl, fun _ _ => rfl⟩

theorem framesTo_trans {m m' m'' : ServiceMap} {telco : TelcoKey} {id : String}
    (h1 : FramesTo m m' telco id) (h2 : FramesTo m' m'' telco id) :
    FramesTo m m'' telco id :=
  ⟨h2.domEq.trans h1.domEq, h2.idEq.trans h1.idEq, h2.nameEq.trans h1.nameEq,
    h2.descEq.trans h1.descEq, h2.activeEq.trans h1.activeEq,
    fun t2 ht => (h2.otherNetEq t2 ht).trans (h1.otherNetEq t2 ht)⟩

theorem step_lookup_ne (m : ServiceMap) (telco : TelcoKey) (now : String)
    (p : String × RawTelco) (id : String) (h : id ≠ p.1) :
    lookupA (applyTelcoSubsetStep telco now m p) id = lookupA m id := by
  unfold applyTelcoSubsetStep
  cases hm : lookupA m p.1 with
  | none => rfl
  | some e => exact lookupA_insertA_ne m p.1 id _ h

theorem framesTo_step (m : ServiceMap) (telco : TelcoKey) (now : String)
    (p : String × RawTelco) (id : String) :
    FramesTo m (applyTelcoSubsetStep telco now m p) telco id := by
  obtain ⟨pk, pv⟩ := p
  by_cases hid : id = pk
  · subst hid
    unfold applyTelcoSubsetStep
    cases hm : lookupA m id with
    | none => exact framesTo_refl m telco id
    | some e =>
      refine ⟨?_, ?_, ?_, ?_, ?_, ?_⟩ <;>
        simp only [lookupA_insertA_self, hm] <;>
        first
          | rfl
          | (intro t2 ht
             simp [telcoGet_telcoSet_ne e.telcos telco t2 _ ht])
  · have h := step_lookup_ne m telco now (pk, pv) id hid
    exact ⟨by rw [h], by rw [h], by rw [h], by rw [h], by rw [h], fun _ _ => by rw [h]⟩

/-- C6: `applyTelcoSubset` for network `N` changes only `N`'s
code/explanation record (and `lastUpdated`) of the services named in the
subset: for every id, the domain, `service_id`, `service_name`,
`description`, `active` and every other network's record are unchanged,
and ids not named in the subset (including subset entries naming unknown
services, which are skipped silently) retain their exact entry. -/
theorem applyTelcoSubset_frame (subset : List (String × RawTelco)) (m : ServiceMap)
    (telco : TelcoKey) (now : String) (id : String) :
    FramesTo m (applyTelcoSubset m telco subset now) telco id ∧
    (id ∉ keysA subset →
      lookupA (applyTelcoSubset m telco subset now) id = lookupA m id) := by
  induction subset generalizing m with
  | nil => exact ⟨framesTo_refl m telco id, fun _ => rfl⟩
  | cons p ps ih =>
    have hstep := framesTo_step m telco now p id
    have hih := ih (applyTelcoSubsetStep telco now m p)
    constructor
    · exact framesTo_trans hstep hih.1
    · intro hnm
      rw [keysA_cons, List.mem_cons] at hnm
      push_neg at hnm
      calc lookupA (applyTelcoSubset (applyTelcoSubsetStep telco now m p) telco ps now) id
          = lookupA (applyTelcoSubsetStep telco now m p) id := hih.2 hnm.2
        _ = lookupA m id := step_lookup_ne m telco now p id hnm.1

def entryOther : ServiceEntry :=
  { service_id := "other", service_name := "Other Service"
    description := some "guide", telcos := telcosEmpty, active := false
    lastUpdated := "t0" }

def M6 : ServiceMap := [("sv", entrySv), ("other", entryOther)]

def S6 : List (String × RawTelco) :=
  [("sv", { code := some "*9#", explanation := none }),
   ("ghost", { code := some "*0#", explanation := some "x" })]

/-- Witness for C6 at a concrete map and subset: the subset for mtn
leaves `sv`'s name and glo record unchanged, does not create the unknown
service `ghost`, and leaves the unnamed service `other` exactly as it
was. -/
theorem applyTelcoSubset_frame_wit :
    (lookupA (applyTelcoSubset M6 TelcoKey.mtn S6 "t9") "sv").map
        ServiceEntry.service_name =
      (lookupA M6 "sv").map ServiceEntry.service_name ∧
    (lookupA (applyTelcoSubset M6 TelcoKey.mtn S6 "t9") "sv").map
        (fun e => telcoGet e.telcos TelcoKey.glo) =
      (lookupA M6 "sv").map (fun e => telcoGet e.telcos TelcoKey.glo) ∧
    (lookupA (applyTelcoSubset M6 TelcoKey.mtn S6 "t9") "ghost").isSome =
      (lookupA M6 "ghost").isSome ∧
    lookupA (applyTelcoSubset M6 TelcoKey.mtn S6 "t9") "other" = lookupA M6 "other" :=
  ⟨(applyTelcoSubset_frame S6 M6 TelcoKey.mtn "t9" "sv").1.nameEq,
    (applyTelcoSubset_frame S6 M6 TelcoKey.mtn "t9" "sv").1.otherNetEq TelcoKey.glo
      (by decide),
    (applyTelcoSubset_frame S6 M6 TelcoKey.mtn "t9" "ghost").1.domEq,
    (applyTelcoSubset_frame S6 M6 TelcoKey.mtn "t9" "other").2 (by decide)⟩

/-! ## C7 – C10: read-only API theorems -/

def blobCB : ServiceBlob :=
  { service_name := some "Check Airtime Balance"
    mtn := some { code := "*124#", explanation := "bal" }
    telecel := some { code := "*124#", explanation := "bal" }
    airteltigo := some { code := "*134#", explanation := "bal" }
    glo := some { code := "*124#", explanation := "bal" } }

def blobPart : ServiceBlob :=
  { service_name := some "Partial"
    mtn := some { code := "*1#", explanation := "x" }
    telecel := none, airteltigo := none, glo := none }

def D7 : UssdData := [("check_balance", blobCB), ("partial", blobPart)]

/-- C7: `lookup(service, network)` first trims and lowercases both
arguments, then answers 404 for an unknown service, 400 for a network
outside the fixed set mtn/telecel/airteltigo/glo, 404 for a known
service with no record for that network, and `{code, explanation}`
(status 200) otherwise. -/
theorem handleLookup_cases (data : UssdData) (service network : String) :
    (lookupA data (normalizeService service) = none →
      handleLookup data service network = LookupOutcome.unknownService ∧
      lookupStatus (handleLookup data service network) = 404) ∧
    (∀ blob, lookupA data (normalizeService service) = some blob →
      validNetworks.contains (normalizeNetwork network) = false →
      handleLookup data service network = LookupOutcome.unknownNetwork ∧
      lookupStatus (handleLookup data service network) = 400) ∧
    (∀ blob, lookupA data (normalizeService service) = some blob →
      validNetworks.contains (normalizeNetwork network) = true →
      blobGet blob (normalizeNetwork network) = none →
      handleLookup data service network = LookupOutcome.noEntry ∧
      lookupStatus (handleLookup data service network) = 404) ∧
    (∀ blob entry, lookupA data (normalizeService service) = some blob →
      validNetworks.contains (normalizeNetwork network) = true →
      blobGet blob (normalizeNetwork network) = some entry →
      handleLookup data service network =
        LookupOutcome.success entry.code entry.explanation ∧
      lookupStatus (handleLookup data service network) = 200) := by
  refine ⟨?_, ?_, ?_, ?_⟩ <;> intros <;> simp_all [handleLookup, lookupStatus]

/-- Witness for C7: all four branches at concrete data, including
normalization of " Check_Balance ". -/
theorem handleLookup_cases_wit :
    handleLookup D7 "nope" "mtn" = LookupOutcome.unknownService ∧
    handleLookup D7 " Check_Balance " "xx" = LookupOutcome.unknownNetwork ∧
    handleLookup D7 "partial" "glo" = LookupOutcome.noEntry ∧
    handleLookup D7 "check_balance" "MTN" = LookupOutcome.success "*124#" "bal" :=
  ⟨((handleLookup_cases D7 "nope" "mtn").1 (by decide)).1,
    ((handleLookup_cases D7 " Check_Balance " "xx").2.1 blobCB (by decide) (by decide)).1,
    ((handleLookup_cases D7 "partial" "glo").2.2.1 blobPart (by decide) (by decide)
      (by decide)).1,
    ((handleLookup_cases D7 "check_balance" "MTN").2.2.2 blobCB
      { code := "*124#", explanation := "bal" } (by decide) (by decide) (by decide)).1⟩

def reqApproved : ChangeRequest :=
  { id := "cr9", serviceId := "sv", field := "telcos.glo.code"
    oldValue := "", newValue := "*3#", requestedBy := "Rep", requestedAt := "t0"
    status := Status.approved, reviewedBy := some "Boss", reviewedAt := some "t1"
    comments := none }

def reqDraft8 : ChangeRequest :=
  { id := "cr8", serviceId := "sv", field := "telcos.glo.explanation"
    oldValue := "", newValue := "hi", requestedBy := "Rep", requestedAt := "t0"
    status := Status.draft, reviewedBy := none, reviewedAt := none, comments := none }

def stC8 : AppState :=
  { services := [("sv", entrySv)]
    changeRequests := [("cr9", reqApproved), ("cr8", reqDraft8)]
    session := some { role := Role.glo, displayName := "Stranger" } }

/-- C8: `cancel(requestId)` deletes the request with that id from the
ledger unconditionally — it checks neither the request's status nor the
caller's identity, so it removes pending/approved/rejected requests just
as it removes drafts, leaving every other request and the whole catalog
untouched and showing no alert. -/
theorem cancel_removes_any_status (st : AppState) (rid rid' : String)
    (h : rid' ≠ rid) :
    lookupA (cancelDraftChange st rid).state.changeRequests rid = none ∧
    lookupA (cancelDraftChange st rid).state.changeRequests rid' =
      lookupA st.changeRequests rid' ∧
    (cancelDraftChange st rid).state.services = st.services ∧
    (cancelDraftChange st rid).alert = none :=
  ⟨lookupA_eraseA_self st.changeRequests rid,
    lookupA_eraseA_ne st.changeRequests rid rid' h, rfl, rfl⟩

/-- Witness for C8: a non-requester session deletes an `approved` request
(erasing it from the audit trail) while the draft `cr8` survives. -/
theorem cancel_removes_any_status_wit :
    lookupA (cancelDraftChange stC8 "cr9").state.changeRequests "cr9" = none ∧
    lookupA (cancelDraftChange stC8 "cr9").state.changeRequests "cr8" =
      lookupA stC8.changeRequests "cr8" :=
  ⟨(cancel_removes_any_status stC8 "cr9" "cr8" (by decide)).1,
    (cancel_removes_any_status stC8 "cr9" "cr8" (by decide)).2.1⟩

/-- C9: when the service is unknown AND the network is outside the fixed
set, `lookup` answers with the 404 unknown-service error, not the 400
bad-network error: the service lookup is performed before the network is
validated. -/
theorem lookup_service_checked_before_network (data : UssdData)
    (service network : String)
    (hs : lookupA data (normalizeService service) = none)
    (_hn : validNetworks.contains (normalizeNetwork network) = false) :
    handleLookup data service network = LookupOutcome.unknownService ∧
    handleLookup data service network ≠ LookupOutcome.unknownNetwork ∧
    lookupStatus (handleLookup data service network) = 404 := by
  simp [handleLookup, hs, lookupStatus]

/-- Witness for C9: unknown service "nope" with invalid network "xx". -/
theorem lookup_service_checked_before_network_wit :
    handleLookup D7 "nope" "xx" = LookupOutcome.unknownService ∧
    lookupStatus (handleLookup D7 "nope" "xx") = 404 :=
  ⟨(lookup_service_checked_before_network D7 "nope" "xx" (by decide) (by decide)).1,
    (lookup_service_checked_before_network D7 "nope" "xx" (by decide) (by decide)).2.2⟩

theorem codeOrNull_falsy (o : Option TelcoInfo)
    (h : o.map TelcoInfo.code = none ∨ o.map TelcoInfo.code = some "") :
    codeOrNull o = none := by
  cases o with
  | none => rfl
  | some t =>
    rcases h with h | h
    · simp at h
    · simp at h
      simp [codeOrNull, h]

/-- C10: for a known service, `compare` yields `null` for a network whose
dial code is the empty string exactly as for a network whose record is
missing — `?.code || null` coerces both to `null`, making the two cases
indistinguishable in the response. -/
theorem compare_falsy_code_null (data : UssdData) (service : String)
    (blob : ServiceBlob) (n : TelcoKey)
    (hs : lookupA data (normalizeService service) = some blob)
    (hcode : (blobNet blob n).map TelcoInfo.code = none ∨
      (blobNet blob n).map TelcoInfo.code = some "") :
    isOk (handleCompare data service) = true ∧
    compareCodeAt (handleCompare data service) n = none := by
  have hnull := codeOrNull_falsy (blobNet blob n) hcode
  refine ⟨by simp [handleCompare, hs, isOk], ?_⟩
  cases n <;> simpa [handleCompare, hs, compareCodeAt, blobNet] using hnull

def tEmptyCode : TelcoInfo := { code := "", explanation := "empty" }

def B10 : ServiceBlob :=
  { service_name := some "Empty Code"
    mtn := some tEmptyCode
    telecel := none
    airteltigo := some { code := "*1#", explanation := "y" }
    glo := some { code := "*2#", explanation := "z" } }

def D10 : UssdData := [("empty_code", B10)]

/-- Witness for C10: a service whose mtn code is the empty string yields
`null` for mtn in the compare response. -/
theorem compare_falsy_code_null_wit :
    isOk (handleCompare D10 "empty_code") = true ∧
    compareCodeAt (handleCompare D10 "empty_code") TelcoKey.mtn = none :=
  compare_falsy_code_null D10 "empty_code" B10 TelcoKey.mtn (by decide)
    (Or.inr (by decide))

end Ussd
